import Mathlib

/-!
Verification development for the LeadPilot lead-scraper (`src/server.js`).

The file shallowly embeds the pure/algorithmic parts of the server:
  * the contact miner of `extractFromPage` (lines 111-186): JavaScript
    regular-expression matching (`String.match` with the `g`/`i` flags and
    `String.replace`) is embedded as an executable backtracking matcher over
    `List Char`, with the exact token lists of the source's patterns;
  * the website-enrichment orchestrator `extractContactInfoFromWebsite`
    (lines 32-79), with page rendering abstracted as the list of contact
    bundles mined from the candidate internal pages;
  * the scroll-convergence loop and the per-listing processing loop of
    `scrapeGoogleMaps` (lines 189-345), with the browser abstracted as the
    observed loaded-count sequence / a per-listing outcome oracle;
  * the `/api/scrape` job state machine (lines 17-24 and 404-473).
-/

/-! ## JavaScript regex embedding

A pattern is a sequence of tokens.  `Tok.alts cs` tries the literal strings
`cs` in order (case-insensitively, as all the source's regexes carry the `i`
flag); the empty string as a last alternative encodes an optional group such
as `(?:https?:\/\/)?`.  `Tok.rep n p` is the greedy `[p]{n,}` (so `rep 1` is
`+`, `rep 0` is `*`), tried longest-first with backtracking, exactly as a
JavaScript regex engine does. -/

inductive Tok where
  | alts (cs : List (List Char))
  | rep (n : Nat) (p : Char → Bool)

/-- Case-insensitive character comparison (the `i` flag). -/
def ciEq (a b : Char) : Bool := a.toLower == b.toLower

/-- Match the literal `pat` (case-insensitively) at the head of `s`;
returns the consumed characters (original case, as JavaScript keeps the
matched text) and the remainder. -/
def stripPrefixCI : List Char → List Char → Option (List Char × List Char)
  | [], s => some ([], s)
  | _ :: _, [] => none
  | p :: ps, c :: s =>
    if ciEq p c then
      match stripPrefixCI ps s with
      | some (a, r) => some (c :: a, r)
      | none => none
    else none

/-- Length of the maximal prefix of `s` whose characters satisfy `p`. -/
def runLen (p : Char → Bool) : List Char → Nat
  | [] => 0
  | c :: rest => if p c then runLen p rest + 1 else 0

/-- All ways a single token can consume a prefix of `s`, in the order a
backtracking engine tries them (alternatives in syntactic order; repetitions
longest-first down to the minimum count). -/
def tokSplits : Tok → List Char → List (List Char × List Char)
  | Tok.alts cs, s => cs.filterMap (fun c => stripPrefixCI c s)
  | Tok.rep n p, s =>
    let m := runLen p s
    (List.range (m + 1 - n)).map (fun j => (s.take (m - j), s.drop (m - j)))

/-- Match a token sequence at the head of `s` with backtracking: the first
candidate split of the leading token whose continuation succeeds wins. -/
def matchToks : List Tok → List Char → Option (List Char × List Char)
  | [], s => some ([], s)
  | t :: ts, s =>
    (tokSplits t s).findSome? (fun pr =>
      match matchToks ts pr.2 with
      | some (b, r2) => some (pr.1 ++ b, r2)
      | none => none)

/-- `String.match(re, 'g')`: scan left to right, emit each non-overlapping
match, restart one character later after a failed position.  The fuel is the
input length (every step consumes at least one character for the source's
patterns, which never match the empty string). -/
def scanAll : Nat → List Tok → List Char → List String
  | 0, _, _ => []
  | _, _, [] => []
  | fuel + 1, toks, c :: rest =>
    match matchToks toks (c :: rest) with
    | some (a :: as, r) => String.mk (a :: as) :: scanAll fuel toks r
    | some ([], _) => scanAll fuel toks rest
    | none => scanAll fuel toks rest

/-- `String.replace(re, rep)` with the `g` flag: every match is replaced by
`rep`, other characters are kept. -/
def replaceAll : Nat → List Tok → List Char → List Char → List Char
  | 0, _, _, s => s
  | _, _, _, [] => []
  | fuel + 1, toks, rep, c :: rest =>
    match matchToks toks (c :: rest) with
    | some (_ :: _, r) => rep ++ replaceAll fuel toks rep r
    | some ([], _) => c :: replaceAll fuel toks rep rest
    | none => c :: replaceAll fuel toks rep rest

def jsMatchAll (toks : List Tok) (s : String) : List String :=
  scanAll (s.toList.length + 1) toks s.toList

def jsReplaceAll (toks : List Tok) (rep : String) (s : String) : String :=
  String.mk (replaceAll (s.toList.length + 1) toks rep.toList s.toList)

/-! ## String helpers mirroring the JavaScript string methods used -/

/-- `a.startsWith(b)` / list-prefix test (case-sensitive, like JavaScript). -/
def isPrefOf : List Char → List Char → Bool
  | [], _ => true
  | _ :: _, [] => false
  | a :: as, b :: bs => a == b && isPrefOf as bs

def jsStartsWith (s pre : String) : Bool := isPrefOf pre.toList s.toList

/-- Substring containment, `a.includes(b)`. -/
def containsSub (sub : List Char) : List Char → Bool
  | [] => isPrefOf sub []
  | s@(_ :: rest) => isPrefOf sub s || containsSub sub rest

def jsIncludes (s sub : String) : Bool := containsSub sub.toList s.toList

/-- `a.endsWith(b)`. -/
def jsEndsWith (s suf : String) : Bool :=
  isPrefOf suf.toList.reverse s.toList.reverse

/-- `a.toLowerCase()` (ASCII, which covers every character the source's
patterns can match). -/
def jsToLower (s : String) : String := String.mk (s.toList.map Char.toLower)

/-- `[...new Set(l)]`: deduplicate keeping the first occurrence of each
element (JavaScript `Set` iteration order is insertion order). -/
def jsDedupAux (seen : List String) : List String → List String
  | [] => []
  | a :: l => if a ∈ seen then jsDedupAux seen l else a :: jsDedupAux (a :: seen) l

def jsDedup (l : List String) : List String := jsDedupAux [] l

/-- `[...new Set([...a, ...b])]`, the merge used at lines 63-65 and 148. -/
def jsUnion (a b : List String) : List String := jsDedup (a ++ b)

/-! ## Character classes and token lists of the source's regexes -/

/-- `[a-zA-Z0-9._%+-]` (email local part; also the facebook handle class). -/
def localC (c : Char) : Bool :=
  c.isAlphanum || c == '.' || c == '_' || c == '%' || c == '+' || c == '-'

/-- `[a-zA-Z0-9.-]` (email domain part). -/
def domainC (c : Char) : Bool := c.isAlphanum || c == '.' || c == '-'

/-- `[a-zA-Z]`. -/
def alphaC (c : Char) : Bool := c.isAlpha

/-- `[a-zA-Z0-9._]` (instagram handle class; note: no `%`, `+`, `-`, `/`). -/
def instaC (c : Char) : Bool := c.isAlphanum || c == '.' || c == '_'

/-- `\s`. -/
def wsC (c : Char) : Bool := c == ' ' || c == '\t' || c == '\n' || c == '\r'

def lit (c : Char) : Tok := Tok.alts [[c]]

def lits (s : String) : Tok := Tok.alts [s.toList]

/-- `/[a-zA-Z0-9._%+-]+@[a-zA-Z0-9.-]+\.[a-zA-Z]{2,}/gi` (line 132). -/
def emailToks : List Tok :=
  [Tok.rep 1 localC, lit '@', Tok.rep 1 domainC, lit '.', Tok.rep 2 alphaC]

/-- `/[a-zA-Z0-9._%+-]+\s*\[\s*at\s*\]\s*[a-zA-Z0-9.-]+\s*\[\s*dot\s*\]\s*[a-zA-Z]{2,}/gi`
(line 145). -/
def obfToks : List Tok :=
  [Tok.rep 1 localC, Tok.rep 0 wsC, lit '[', Tok.rep 0 wsC, lit 'a', lit 't',
   Tok.rep 0 wsC, lit ']', Tok.rep 0 wsC, Tok.rep 1 domainC, Tok.rep 0 wsC,
   lit '[', Tok.rep 0 wsC, lit 'd', lit 'o', lit 't', Tok.rep 0 wsC, lit ']',
   Tok.rep 0 wsC, Tok.rep 2 alphaC]

/-- `/\s*\[\s*at\s*\]\s*/gi` (line 146, replaced by `@`). -/
def atToks : List Tok :=
  [Tok.rep 0 wsC, lit '[', Tok.rep 0 wsC, lit 'a', lit 't', Tok.rep 0 wsC,
   lit ']', Tok.rep 0 wsC]

/-- `/\s*\[\s*dot\s*\]\s*/gi` (line 146, replaced by `.`). -/
def dotToks : List Tok :=
  [Tok.rep 0 wsC, lit '[', Tok.rep 0 wsC, lit 'd', lit 'o', lit 't',
   Tok.rep 0 wsC, lit ']', Tok.rep 0 wsC]

/-- `(?:https?:\/\/)?`: the group's alternatives in backtracking order,
then the empty skip. -/
def schemeTok : Tok := Tok.alts ["https://".toList, "http://".toList, []]

/-- `(?:www\.)?`. -/
def wwwTok : Tok := Tok.alts ["www.".toList, []]

/-- `/(?:https?:\/\/)?(?:www\.)?facebook\.com\/[a-zA-Z0-9._%+-]+/gi` (line 154). -/
def fbToks : List Tok := [schemeTok, wwwTok, lits "facebook.com/", Tok.rep 1 localC]

/-- `/(?:https?:\/\/)?(?:www\.)?instagram\.com\/[a-zA-Z0-9._]+/gi` (line 163). -/
def instaToks : List Tok := [schemeTok, wwwTok, lits "instagram.com/", Tok.rep 1 instaC]

/-! ## Contact miner (`extractFromPage`, lines 131-181) -/

/-- The rejection filter at lines 133-141. -/
def emailFilter (email : String) : Bool :=
  let lower := jsToLower email
  !(jsEndsWith lower ".png") && !(jsEndsWith lower ".jpg") &&
  !(jsEndsWith lower ".jpeg") && !(jsIncludes lower "example") &&
  !(jsIncludes lower "test@") && jsIncludes lower "."

/-- First extraction pass (lines 131-142): match, filter, deduplicate. -/
def emailsPass1 (html : String) : List String :=
  jsDedup ((jsMatchAll emailToks html).filter emailFilter)

/-- Line 146: `email.replace(at-re, '@').replace(dot-re, '.')`. -/
def deobfuscate (email : String) : String :=
  jsReplaceAll dotToks "." (jsReplaceAll atToks "@" email)

/-- Obfuscated pass (lines 145-146): matched then normalized, no filter. -/
def obfuscatedEmails (html : String) : List String :=
  (jsMatchAll obfToks html).map deobfuscate

/-- Line 148: union of the two passes. -/
def extractEmails (html : String) : List String :=
  jsDedup (emailsPass1 html ++ obfuscatedEmails html)

/-- Line 155: prepend `https://` when the matched link has no scheme. -/
def fbNormalize (link : String) : String :=
  if jsStartsWith link "http" then link else "https://" ++ link

/-- Facebook extraction (lines 153-157): match, normalize, exclude
`/login` and `/share`, deduplicate. -/
def extractFacebook (html : String) : List String :=
  jsDedup (((jsMatchAll fbToks html).map fbNormalize).filter
    (fun link => !(jsIncludes link "/login") && !(jsIncludes link "/share")))

/-- Raw instagram links (lines 162-165): match, normalize, deduplicate. -/
def rawInstagram (html : String) : List String :=
  jsDedup ((jsMatchAll instaToks html).map fbNormalize)

/-- Lines 167-172: the profile-only subset. -/
def instaProfiles (links : List String) : List String :=
  links.filter (fun link =>
    !(jsIncludes link "/p/") && !(jsIncludes link "/reel/") &&
    !(jsIncludes link "/tv/") && !(jsIncludes link "/stories/"))

/-- Lines 174-177: keep the profiles, or fall back to the first raw link. -/
def instaSelect (links : List String) : List String :=
  let profiles := instaProfiles links
  if profiles.isEmpty && !links.isEmpty then links.take 1 else profiles

def extractInstagram (html : String) : List String :=
  instaSelect (rawInstagram html)

structure ContactBundle where
  emails : List String
  facebook : List String
  instagram : List String
deriving DecidableEq

/-- The pure content of `extractFromPage` (lines 111-186) on rendered
page content. -/
def extractFromPage (html : String) : ContactBundle :=
  { emails := extractEmails html
    facebook := extractFacebook html
    instagram := extractInstagram html }

/-! ## Website enrichment orchestrator (`extractContactInfoFromWebsite`,
lines 32-79)

Page rendering is abstracted away: `home` is the bundle mined from the
homepage (line 50), and `internals` is, in order, the outcome of mining each
candidate internal page found by `findInternalPages` — `none` when the
mining attempt throws (caught at lines 66-68), `some b` otherwise. -/

/-- Lines 63-65: per-field set-union merge; a failed page contributes
nothing and the loop continues with the next candidate. -/
def mergeBundle (acc : ContactBundle) : Option ContactBundle → ContactBundle
  | none => acc
  | some info =>
    { emails := jsUnion acc.emails info.emails
      facebook := jsUnion acc.facebook info.facebook
      instagram := jsUnion acc.instagram info.instagram }

/-- Line 53's condition: at least one of the three channels is empty. -/
def notSufficient (b : ContactBundle) : Bool :=
  b.emails.isEmpty || b.facebook.isEmpty || b.instagram.isEmpty

/-- The orchestrator: homepage bundle, then — only when the flag is set and
the bundle is not sufficient — the first three internal candidates
(`internalPages.slice(0, 3)`, line 57) are mined and merged.  Returns the
final bundle and the number of internal pages visited. -/
def extractContactInfoFromWebsite (home : ContactBundle)
    (internals : List (Option ContactBundle)) (visitInternalPages : Bool) :
    ContactBundle × Nat :=
  if visitInternalPages && notSufficient home then
    ((internals.take 3).foldl mergeBundle home, (internals.take 3).length)
  else (home, 0)

/-! ## Scroll-convergence loop (`scrapeGoogleMaps`, lines 204-245) -/

structure ScrollOutcome where
  rounds : Nat
  graceWaits : Nat
  lastObserved : Nat
deriving DecidableEq

/-- One execution of the scroll loop.  `counts i` is the loaded-entry count
observed at round `i` (line 222), `panel i` whether the feed panel exists at
round `i` (line 210).  `fuel` is the remaining rounds (20 at the start,
`MAX_SCROLLS`), `i` the current round index, `last` and `noNew` the
`lastCount` / `noNewResultsCount` variables; `waits` counts the 30-second
grace waits taken (line 239), `lastObs` the last observed count. -/
def scrollAux (counts : Nat → Nat) (panel : Nat → Bool) (target : Nat) :
    Nat → Nat → Nat → Nat → Nat → Nat → ScrollOutcome
  | 0, i, _, _, waits, lastObs => ⟨i, waits, lastObs⟩
  | fuel + 1, i, last, noNew, waits, _ =>
    if panel i = false then ⟨i, waits, 0⟩
    else
      let cur := counts i
      if cur ≥ target then ⟨i + 1, waits, cur⟩
      else if cur = last then
        (if noNew + 1 ≥ 2 then ⟨i + 1, waits, cur⟩
         else scrollAux counts panel target fuel (i + 1) cur (noNew + 1) (waits + 1) cur)
      else scrollAux counts panel target fuel (i + 1) cur 0 waits cur

/-- The loop with the source's initial values (`MAX_SCROLLS = 20`,
`lastCount = 0`, `noNewResultsCount = 0`). -/
def scrollLoop (counts : Nat → Nat) (panel : Nat → Bool) (target : Nat) :
    ScrollOutcome :=
  scrollAux counts panel target 20 0 0 0 0 0

/-! ## Per-listing processing loop (`scrapeGoogleMaps`, lines 247-338) -/

/-- A listing stub as collected at lines 247-253 (`aria-label` and `href`
of each `a.hfpxzc` anchor, in DOM order, with no deduplication). -/
structure Business where
  name : String
  link : String
deriving DecidableEq

/-- The per-listing fields extracted inside the `try` block
(lines 262-323). -/
structure DetailInfo where
  phone : String
  website : String
  rating : String
  reviews : String
  contact : ContactBundle
deriving DecidableEq

/-- One exported row (lines 311-321 / 326-336). -/
structure LeadRecord where
  name : String
  maps_link : String
  phone : String
  website : String
  rating : String
  reviews : String
  emails : String
  facebook : String
  instagram : String
deriving DecidableEq

def emptyBiz : Business := ⟨"", ""⟩

def blankRec : LeadRecord := ⟨"", "", "", "", "", "", "", "", ""⟩

/-- `contactInfo.emails.join(', ')`. -/
def joinComma (l : List String) : String := String.intercalate ", " l

/-- The record pushed for one listing: the full row on success
(lines 311-321), or the name-and-link-only row from the `catch` block
(lines 326-336) when any step for that listing throws. -/
def recordOf (b : Business) : Option DetailInfo → LeadRecord
  | some d =>
    { name := b.name, maps_link := b.link, phone := d.phone
      website := d.website, rating := d.rating, reviews := d.reviews
      emails := joinComma d.contact.emails
      facebook := joinComma d.contact.facebook
      instagram := joinComma d.contact.instagram }
  | none =>
    { name := b.name, maps_link := b.link, phone := "", website := ""
      rating := "", reviews := "", emails := "", facebook := "", instagram := "" }

/-- The loop at line 258: `for (i = 0; i < Math.min(businesses.length,
targetCount); i++)`, one record pushed per iteration.  `detail i` is the
outcome of processing listing `i` (`none` = an exception was thrown for that
listing). -/
def processListings (businesses : List Business) (target : Nat)
    (detail : Nat → Option DetailInfo) : List LeadRecord :=
  (List.range (min businesses.length target)).map
    (fun i => recordOf (businesses.getD i emptyBiz) (detail i))

/-! ## Job state machine (`processingState`, lines 17-24, and
`app.post('/api/scrape')`, lines 404-473) -/

structure ProcState where
  isProcessing : Bool
  currentQuery : String
  currentCount : Nat
  startTime : Option Nat
  processId : Option String
deriving DecidableEq

/-- The initial state (lines 18-24), also the state restored on completion
(lines 457-461) and on failure (lines 467-471). -/
def idleState : ProcState :=
  { isProcessing := false, currentQuery := "", currentCount := 0
    startTime := none, processId := none }

inductive ScrapeResponse where
  | badRequest
  | conflict (query : String) (count : Nat) (elapsed : Nat)
  | accepted (processId : String) (query : String) (count : Nat)
deriving DecidableEq

/-- HTTP status of each response (lines 408, 413, 436). -/
def statusOf : ScrapeResponse → Nat
  | ScrapeResponse.badRequest => 400
  | ScrapeResponse.conflict _ _ _ => 429
  | ScrapeResponse.accepted _ _ _ => 200

/-- JavaScript falsiness of `query` (`undefined` or `''`). -/
def isFalsyStr : Option String → Bool
  | none => true
  | some s => s == ""

/-- JavaScript falsiness of `count` (`undefined` or `0`). -/
def isFalsyNat : Option Nat → Bool
  | none => true
  | some n => n == 0

/-- The synchronous part of the `/api/scrape` handler (lines 404-442):
the 400 guard, the 429 single-flight guard (which reports the in-progress
query, count and elapsed time and does not touch the state), and the
accepted transition to the running state. -/
def handleScrapeStart (st : ProcState) (now : Nat) (query : Option String)
    (count : Option Nat) : ScrapeResponse × ProcState :=
  if isFalsyStr query || isFalsyNat count then
    (ScrapeResponse.badRequest, st)
  else if st.isProcessing then
    (ScrapeResponse.conflict st.currentQuery st.currentCount
      (now - st.startTime.getD 0), st)
  else
    let q := query.getD ""
    let c := count.getD 0
    let pid := "proc_" ++ toString now
    (ScrapeResponse.accepted pid q c,
     { isProcessing := true, currentQuery := q, currentCount := c
       startTime := some now, processId := some pid })

/-- Pipeline completion (lines 456-461 on success, 466-471 in the `catch`):
both paths clear every field identically, so the outcome flag is unused. -/
def handleScrapeFinish (_success : Bool) (_st : ProcState) : ProcState :=
  idleState

/-! ## Helper lemmas -/

theorem mem_jsDedupAux (x : String) :
    ∀ (l seen : List String), x ∈ jsDedupAux seen l ↔ x ∈ l ∧ x ∉ seen := by
  intro l
  induction l with
  | nil => intro seen; simp [jsDedupAux]
  | cons a l ih =>
    intro seen
    by_cases ha : a ∈ seen
    · simp only [jsDedupAux, if_pos ha, ih, List.mem_cons]
      constructor
      · rintro ⟨hl, hs⟩; exact ⟨Or.inr hl, hs⟩
      · rintro ⟨hal, hs⟩
        rcases hal with rfl | hl
        · exact absurd ha hs
        · exact ⟨hl, hs⟩
    · simp only [jsDedupAux, if_neg ha, List.mem_cons, ih]
      constructor
      · rintro (rfl | ⟨hl, hs⟩)
        · exact ⟨Or.inl rfl, ha⟩
        · refine ⟨Or.inr hl, fun hx => hs (Or.inr hx)⟩
      · rintro ⟨rfl | hl, hs⟩
        · exact Or.inl rfl
        · by_cases hxa : x = a
          · exact Or.inl hxa
          · refine Or.inr ⟨hl, ?_⟩
            simp only [List.mem_cons, not_or]
            exact ⟨hxa, hs⟩

theorem mem_jsDedup (x : String) (l : List String) :
    x ∈ jsDedup l ↔ x ∈ l := by
  simp [jsDedup, mem_jsDedupAux]

theorem nodup_jsDedupAux :
    ∀ (l seen : List String), (jsDedupAux seen l).Nodup := by
  intro l
  induction l with
  | nil => intro seen; simp [jsDedupAux]
  | cons a l ih =>
    intro seen
    by_cases ha : a ∈ seen
    · simpa [jsDedupAux, if_pos ha] using ih seen
    · have tail := ih (a :: seen)
      have hnotmem : a ∉ jsDedupAux (a :: seen) l := by
        intro hmem
        exact ((mem_jsDedupAux a l (a :: seen)).mp hmem).2 (List.mem_cons_self a seen)
      simp only [jsDedupAux, if_neg ha]
      exact List.nodup_cons.mpr ⟨hnotmem, tail⟩

theorem nodup_jsDedup (l : List String) : (jsDedup l).Nodup :=
  nodup_jsDedupAux l []

theorem mem_jsUnion (x : String) (a b : List String) :
    x ∈ jsUnion a b ↔ x ∈ a ∨ x ∈ b := by
  simp [jsUnion, mem_jsDedup]

theorem isPrefOf_append (a : List Char) :
    ∀ (b c : List Char), isPrefOf a b = true → isPrefOf a (b ++ c) = true := by
  induction a with
  | nil => intro b c _; rfl
  | cons x xs ih =>
    intro b c h
    cases b with
    | nil => simp [isPrefOf] at h
    | cons y ys =>
      simp only [isPrefOf, Bool.and_eq_true] at h
      simp only [List.cons_append, isPrefOf, Bool.and_eq_true]
      exact ⟨h.1, ih ys c h.2⟩

theorem jsStartsWith_https (s : String) :
    jsStartsWith ("https://" ++ s) "http" = true := by
  have hdata : ("https://" ++ s).toList = "https://".toList ++ s.toList := by
    simp [String.toList, String.data_append]
  simp only [jsStartsWith, hdata]
  exact isPrefOf_append _ _ _ (by decide)

theorem fbNormalize_startsWith (link : String) :
    jsStartsWith (fbNormalize link) "http" = true := by
  unfold fbNormalize
  by_cases h : jsStartsWith link "http" = true
  · simp [h]
  · simp only [Bool.not_eq_true] at h
    simp [h, jsStartsWith_https]

theorem mem_foldl_mergeBundle (proj : ContactBundle → List String)
    (hp : ∀ acc c, proj (mergeBundle acc (some c)) = jsUnion (proj acc) (proj c)) :
    ∀ (l : List (Option ContactBundle)) (acc : ContactBundle) (x : String),
      x ∈ proj (l.foldl mergeBundle acc) ↔
        x ∈ proj acc ∨ ∃ c, some c ∈ l ∧ x ∈ proj c := by
  intro l
  induction l with
  | nil => intro acc x; simp
  | cons o l ih =>
    intro acc x
    cases o with
    | none =>
      simp only [List.foldl_cons]
      rw [show mergeBundle acc none = acc from rfl, ih]
      constructor
      · rintro (h | ⟨c, hc, hx⟩)
        · exact Or.inl h
        · exact Or.inr ⟨c, List.mem_cons_of_mem _ hc, hx⟩
      · rintro (h | ⟨c, hc, hx⟩)
        · exact Or.inl h
        · rcases List.mem_cons.mp hc with hne | hc'
          · exact absurd hne.symm (by simp)
          · exact Or.inr ⟨c, hc', hx⟩
    | some b =>
      simp only [List.foldl_cons]
      rw [ih, hp, mem_jsUnion]
      constructor
      · rintro ((h | hb) | ⟨c, hc, hx⟩)
        · exact Or.inl h
        · exact Or.inr ⟨b, List.mem_cons_self _ _, hb⟩
        · exact Or.inr ⟨c, List.mem_cons_of_mem _ hc, hx⟩
      · rintro (h | ⟨c, hc, hx⟩)
        · exact Or.inl (Or.inl h)
        · rcases List.mem_cons.mp hc with heq | hc'
          · obtain rfl : c = b := by injection heq
            exact Or.inl (Or.inr hx)
          · exact Or.inr ⟨c, hc', hx⟩

theorem getD_map_range {α : Type} (f : Nat → α) (m i : Nat) (d : α)
    (h : i < m) : ((List.range m).map f).getD i d = f i := by
  rw [List.getD_eq_getElem?_getD, List.getElem?_map, List.getElem?_range h]
  rfl

theorem scrollAux_rounds_le (counts : Nat → Nat) (panel : Nat → Bool)
    (target : Nat) :
    ∀ (fuel i last noNew waits lastObs : Nat),
      (scrollAux counts panel target fuel i last noNew waits lastObs).rounds
        ≤ i + fuel := by
  intro fuel
  induction fuel with
  | zero =>
    intro i last noNew waits lastObs
    simp [scrollAux]
  | succ fuel ih =>
    intro i last noNew waits lastObs
    simp only [scrollAux]
    split_ifs with h1 h2 h3 h4
    · exact Nat.le_add_right i (fuel + 1)
    · exact Nat.succ_le_succ (Nat.le_add_right i fuel)
    · exact Nat.succ_le_succ (Nat.le_add_right i fuel)
    · have := ih (i + 1) (counts i) (noNew + 1) (waits + 1) (counts i)
      omega
    · have := ih (i + 1) (counts i) 0 waits (counts i)
      omega

/-! ## Claim theorems -/

/-- C1: the job state machine enforces single-flight.  A start request while
`isProcessing` is true is answered with a conflict reporting the in-progress
query, count and elapsed time, leaving the state untouched; an accepted
start transitions to the running state; completion (success or failure)
returns the state to idle; and two back-to-back start requests from idle
yield exactly one acceptance and then one conflict. -/
theorem C1_job_single_flight (st : ProcState) (now now2 : Nat) (q : String)
    (c : Nat) (hq : q ≠ "") (hc : c ≠ 0) :
    (st.isProcessing = true →
      handleScrapeStart st now (some q) (some c)
        = (ScrapeResponse.conflict st.currentQuery st.currentCount
            (now - st.startTime.getD 0), st)) ∧
    (st.isProcessing = false →
      (handleScrapeStart st now (some q) (some c)).2.isProcessing = true) ∧
    (∀ success : Bool, handleScrapeFinish success st = idleState) ∧
    idleState.isProcessing = false ∧
    (handleScrapeStart idleState now (some q) (some c)).1
      = ScrapeResponse.accepted ("proc_" ++ toString now) q c ∧
    (handleScrapeStart
        (handleScrapeStart idleState now (some q) (some c)).2 now2
        (some q) (some c)).1
      = ScrapeResponse.conflict q c (now2 - now) ∧
    (handleScrapeStart
        (handleScrapeStart idleState now (some q) (some c)).2 now2
        (some q) (some c)).2
      = (handleScrapeStart idleState now (some q) (some c)).2 := by
  have hq' : isFalsyStr (some q) = false := by
    simp [isFalsyStr, hq]
  have hc' : isFalsyNat (some c) = false := by
    simp [isFalsyNat, hc]
  refine ⟨fun h => ?_, fun h => ?_, fun _ => rfl, rfl, ?_, ?_, ?_⟩
  · simp [handleScrapeStart, hq', hc', h]
  · simp [handleScrapeStart, hq', hc', h]
  · simp [handleScrapeStart, hq', hc', idleState]
  · simp [handleScrapeStart, hq', hc', idleState]
  · simp [handleScrapeStart, hq', hc', idleState]

/-- C1 witness: concrete two back-to-back requests from idle. -/
theorem C1_job_single_flight_witness :
    (handleScrapeStart idleState 100 (some "bakery") (some 2)).1
      = ScrapeResponse.accepted ("proc_" ++ toString 100) "bakery" 2 ∧
    (handleScrapeStart
        (handleScrapeStart idleState 100 (some "bakery") (some 2)).2 150
        (some "bakery") (some 2)).1
      = ScrapeResponse.conflict "bakery" 2 50 := by
  have h := C1_job_single_flight idleState 100 150 "bakery" 2
    (by decide) (by decide)
  exact ⟨h.2.2.2.2.1, h.2.2.2.2.2.1⟩

/-- C10: a start request whose body has a missing or falsy `query` or
`count` is answered 400 with the state untouched: no scrape is started. -/
theorem C10_invalid_body_rejected (st : ProcState) (now : Nat)
    (query : Option String) (count : Option Nat)
    (h : (isFalsyStr query || isFalsyNat count) = true) :
    handleScrapeStart st now query count = (ScrapeResponse.badRequest, st) ∧
    statusOf (handleScrapeStart st now query count).1 = 400 ∧
    ∀ pid q c,
      (handleScrapeStart st now query count).1 ≠ ScrapeResponse.accepted pid q c := by
  refine ⟨by simp [handleScrapeStart, h], by simp [handleScrapeStart, h, statusOf], ?_⟩
  intro pid q c
  simp [handleScrapeStart, h]

/-- C10 witness: an empty query with the machine idle. -/
theorem C10_invalid_body_rejected_witness :
    handleScrapeStart idleState 0 (some "") (some 5)
      = (ScrapeResponse.badRequest, idleState) :=
  (C10_invalid_body_rejected idleState 0 (some "") (some 5) (by decide)).1

/-- C3: the discovery scroll loop terminates within 20 rounds; on a feed
whose loaded-count sequence is the constant 5 (with a larger target and the
panel always present) it stops after 3 rounds, having taken exactly one
extended grace wait at the first no-growth round and stopping at the second,
and the 5 available stubs are then all processed. -/
theorem C3_scroll_termination (counts : Nat → Nat) (panel : Nat → Bool)
    (target : Nat) (htarget : 5 < target) :
    (scrollLoop counts panel target).rounds ≤ 20 ∧
    scrollLoop (fun _ => 5) (fun _ => true) target = ⟨3, 1, 5⟩ ∧
    (∀ (bs : List Business) (detail : Nat → Option DetailInfo),
      bs.length = 5 → (processListings bs target detail).length = 5) := by
  refine ⟨scrollAux_rounds_le counts panel target 20 0 0 0 0 0, ?_, ?_⟩
  · have h5 : ¬ (5 ≥ target) := by omega
    simp [scrollLoop, scrollAux, h5]
  · intro bs detail hlen
    simp only [processListings, List.length_map, List.length_range, hlen]
    omega

/-- C3 witness: the constant-5 feed with target 6. -/
theorem C3_scroll_termination_witness :
    scrollLoop (fun _ => 5) (fun _ => true) 6 = ⟨3, 1, 5⟩ :=
  (C3_scroll_termination (fun _ => 5) (fun _ => true) 6 (by decide)).2.1

/-- C4 counterexample: two anchors with the same maps link are both
processed — the stub sequence is not deduplicated by detailLink, so two
processed listings share the same maps link. -/
theorem C4_counterexample :
    (processListings [⟨"Cafe A", "LINK1"⟩, ⟨"Cafe B", "LINK1"⟩] 2
        (fun _ => none)).length = 2 ∧
    ((processListings [⟨"Cafe A", "LINK1"⟩, ⟨"Cafe B", "LINK1"⟩] 2
        (fun _ => none)).getD 0 blankRec).maps_link
      = ((processListings [⟨"Cafe A", "LINK1"⟩, ⟨"Cafe B", "LINK1"⟩] 2
        (fun _ => none)).getD 1 blankRec).maps_link := by
  decide

/-- C4 (amended): the listing stubs are processed in feed order with no
deduplication by detailLink — listing `i` of the output always comes from
stub `i`, duplicates included — and the number of listings processed equals
`min(loadedCount, targetCount)`. -/
theorem C4_no_dedup_min_count (bs : List Business) (target : Nat)
    (detail : Nat → Option DetailInfo) :
    (processListings bs target detail).length = min bs.length target ∧
    ∀ i, i < min bs.length target →
      (processListings bs target detail).getD i blankRec
        = recordOf (bs.getD i emptyBiz) (detail i) := by
  refine ⟨by simp [processListings], fun i hi => ?_⟩
  exact getD_map_range _ _ _ _ hi

/-- C4 witness: the amended statement at a concrete duplicate-link feed. -/
theorem C4_no_dedup_min_count_witness :
    (processListings [⟨"Cafe A", "LINK1"⟩, ⟨"Cafe B", "LINK1"⟩] 2
        (fun _ => none)).getD 1 blankRec
      = recordOf ⟨"Cafe B", "LINK1"⟩ none := by
  have h := (C4_no_dedup_min_count [⟨"Cafe A", "LINK1"⟩, ⟨"Cafe B", "LINK1"⟩] 2
    (fun _ => none)).2 1 (by decide)
  simpa using h

/-- C9: per-listing failure is isolated.  A listing whose processing throws
still yields a record carrying its name and maps link with every other
field empty, the record count is unchanged, and every listing's record
depends only on that listing's own outcome. -/
theorem C9_listing_failure_isolated (bs : List Business) (target : Nat)
    (detail : Nat → Option DetailInfo) (i : Nat)
    (hi : i < min bs.length target) (hfail : detail i = none) :
    (processListings bs target detail).length = min bs.length target ∧
    (processListings bs target detail).getD i blankRec
      = { name := (bs.getD i emptyBiz).name
          maps_link := (bs.getD i emptyBiz).link
          phone := "", website := "", rating := "", reviews := ""
          emails := "", facebook := "", instagram := "" } ∧
    (∀ j, j < min bs.length target →
      (processListings bs target detail).getD j blankRec
        = recordOf (bs.getD j emptyBiz) (detail j)) := by
  refine ⟨by simp [processListings], ?_, fun j hj => getD_map_range _ _ _ _ hj⟩
  have h : (processListings bs target detail).getD i blankRec
      = recordOf (bs.getD i emptyBiz) (detail i) := getD_map_range _ _ _ _ hi
  rw [h, hfail]
  rfl

/-- C9 witness: a two-listing feed where the first listing throws and the
second succeeds. -/
theorem C9_listing_failure_isolated_witness :
    (processListings [⟨"A", "L1"⟩, ⟨"B", "L2"⟩] 2
        (fun i => if i = 0 then none
                  else some ⟨"123", "https://b.example", "4.5", "10", ⟨[], [], []⟩⟩)).getD
        0 blankRec
      = { name := "A", maps_link := "L1", phone := "", website := ""
          rating := "", reviews := "", emails := "", facebook := ""
          instagram := "" } := by
  have h := C9_listing_failure_isolated [⟨"A", "L1"⟩, ⟨"B", "L2"⟩] 2
    (fun i => if i = 0 then none
              else some ⟨"123", "https://b.example", "4.5", "10", ⟨[], [], []⟩⟩)
    0 (by decide) rfl
  simpa using h.2.1

/-- C6: with the internal-pages flag at its default, internal candidate
pages are visited exactly when the homepage bundle is not sufficient, at
most 3 of them are visited, and the final bundle is the per-field set union
of the homepage bundle with the successfully mined pages among the first
three candidates — a failed candidate contributes nothing and does not stop
the loop. -/
theorem C6_enrichment_policy (home : ContactBundle)
    (internals : List (Option ContactBundle)) :
    ((extractContactInfoFromWebsite home internals true).2
        = if notSufficient home = true then min 3 internals.length else 0) ∧
    (extractContactInfoFromWebsite home internals true).2 ≤ 3 ∧
    (∀ x, x ∈ (extractContactInfoFromWebsite home internals true).1.emails ↔
        x ∈ home.emails ∨ (notSufficient home = true ∧
          ∃ c, some c ∈ internals.take 3 ∧ x ∈ c.emails)) ∧
    (∀ x, x ∈ (extractContactInfoFromWebsite home internals true).1.facebook ↔
        x ∈ home.facebook ∨ (notSufficient home = true ∧
          ∃ c, some c ∈ internals.take 3 ∧ x ∈ c.facebook)) ∧
    (∀ x, x ∈ (extractContactInfoFromWebsite home internals true).1.instagram ↔
        x ∈ home.instagram ∨ (notSufficient home = true ∧
          ∃ c, some c ∈ internals.take 3 ∧ x ∈ c.instagram)) := by
  by_cases hs : notSufficient home = true
  · refine ⟨?_, ?_, fun x => ?_, fun x => ?_, fun x => ?_⟩
    · simp [extractContactInfoFromWebsite, hs, List.length_take]
    · simp [extractContactInfoFromWebsite, hs, List.length_take]
    · rw [show (extractContactInfoFromWebsite home internals true).1
          = (internals.take 3).foldl mergeBundle home by
            simp [extractContactInfoFromWebsite, hs]]
      rw [mem_foldl_mergeBundle (fun b => b.emails) (fun _ _ => rfl)]
      simp [hs]
    · rw [show (extractContactInfoFromWebsite home internals true).1
          = (internals.take 3).foldl mergeBundle home by
            simp [extractContactInfoFromWebsite, hs]]
      rw [mem_foldl_mergeBundle (fun b => b.facebook) (fun _ _ => rfl)]
      simp [hs]
    · rw [show (extractContactInfoFromWebsite home internals true).1
          = (internals.take 3).foldl mergeBundle home by
            simp [extractContactInfoFromWebsite, hs]]
      rw [mem_foldl_mergeBundle (fun b => b.instagram) (fun _ _ => rfl)]
      simp [hs]
  · have hs' : notSufficient home = false := by
      simpa using hs
    refine ⟨?_, ?_, fun x => ?_, fun x => ?_, fun x => ?_⟩ <;>
      simp [extractContactInfoFromWebsite, hs']

/-- C2 counterexample: the obfuscated pass is not filtered.  On a page
containing `sales[at]example[dot]com` and `info[at]firm[dot]org`, the
emitted email set contains `sales@example.com` — which violates the
`example` rejection rule — so it is not `{info@firm.org}`. -/
theorem C2_counterexample :
    "sales@example.com"
        ∈ extractEmails "sales[at]example[dot]com info[at]firm[dot]org" ∧
    jsIncludes (jsToLower "sales@example.com") "example" = true ∧
    extractEmails "sales[at]example[dot]com info[at]firm[dot]org"
        ≠ ["info@firm.org"] := by
  decide

/-- C2 (amended): the rejection rules are enforced only on the
directly-matched candidates of the first pass; emails recovered by the
obfuscated `[at]`/`[dot]` pass are normalized but added without filtering,
so for an input containing `sales[at]example[dot]com` and
`info[at]firm[dot]org` the emitted set is
`{sales@example.com, info@firm.org}`. -/
theorem C2_filter_direct_pass_only :
    (∀ (html e : String), e ∈ emailsPass1 html → emailFilter e = true) ∧
    extractEmails "sales[at]example[dot]com info[at]firm[dot]org"
      = ["sales@example.com", "info@firm.org"] := by
  constructor
  · intro html e he
    have hmem := (mem_jsDedup e _).mp he
    exact (List.mem_filter.mp hmem).2
  · decide

/-- C2 witness: the first-pass guarantee at a concrete page. -/
theorem C2_filter_direct_pass_only_witness :
    emailFilter "a@b.com" = true :=
  C2_filter_direct_pass_only.1 "mail a@b.com here" "a@b.com" (by decide)

/-- C5: the mined instagram set is the profile-only subset of the raw
matches (links containing `/p/`, `/reel/`, `/tv/` or `/stories/` excluded),
with the first raw link retained as a fallback exactly when the
profile-only subset is empty and the raw set is not; on the claim's two
raw-link examples the outputs are the stated ones. -/
theorem C5_instagram_profile_fallback :
    (∀ html, extractInstagram html = instaSelect (rawInstagram html)) ∧
    instaSelect ["instagram.com/p/xyz"] = ["instagram.com/p/xyz"] ∧
    instaSelect ["instagram.com/brandname", "instagram.com/p/xyz"]
      = ["instagram.com/brandname"] ∧
    (∀ links, instaProfiles links ≠ [] →
      instaSelect links = instaProfiles links) ∧
    (∀ links, instaProfiles links = [] → links ≠ [] →
      instaSelect links = links.take 1) := by
  refine ⟨fun _ => rfl, by decide, by decide, ?_, ?_⟩
  · intro links h
    have h' : (instaProfiles links).isEmpty = false := by
      simpa [List.isEmpty_iff] using h
    simp [instaSelect, h']
  · intro links h hne
    have h' : (instaProfiles links).isEmpty = true := by
      simp [List.isEmpty_iff, h]
    have hne' : links.isEmpty = false := by
      simpa [List.isEmpty_iff] using hne
    simp [instaSelect, h', hne']

/-- C5 witness: the general clauses at concrete link sets. -/
theorem C5_instagram_profile_fallback_witness :
    extractInstagram "see instagram.com/p/xyz"
      = instaSelect (rawInstagram "see instagram.com/p/xyz") ∧
    instaSelect ["instagram.com/brandname"]
      = instaProfiles ["instagram.com/brandname"] ∧
    instaSelect ["https://instagram.com/p/post"]
      = ["https://instagram.com/p/post"] := by
  refine ⟨C5_instagram_profile_fallback.1 _, ?_, ?_⟩
  · exact C5_instagram_profile_fallback.2.2.2.1 _ (by decide)
  · exact C5_instagram_profile_fallback.2.2.2.2 _ (by decide) (by decide)

/-- C7 counterexample: email deduplication is exact-string, not
case-insensitive — a page containing `Foo@Bar.com` and `foo@bar.com` yields
both entries, two distinct emails equal up to letter case. -/
theorem C7_counterexample :
    "Foo@Bar.com" ∈ extractEmails "Foo@Bar.com foo@bar.com" ∧
    "foo@bar.com" ∈ extractEmails "Foo@Bar.com foo@bar.com" ∧
    "Foo@Bar.com" ≠ "foo@bar.com" ∧
    jsToLower "Foo@Bar.com" = jsToLower "foo@bar.com" := by
  decide

/-- C7 (amended): the emitted email list is deduplicated as exact strings
(`new Set` semantics): it never contains two identical entries, but may
contain distinct entries equal up to letter case. -/
theorem C7_emails_nodup (html : String) : (extractEmails html).Nodup :=
  nodup_jsDedup _

/-- C8: no mined facebook link contains `/login` or `/share`, every emitted
link begins with a scheme (`http...`; schemeless matches get `https://`
prepended), and the emitted list is duplicate-free. -/
theorem C8_facebook_filter_normalized (html : String) :
    (∀ link, link ∈ extractFacebook html →
      jsIncludes link "/login" = false ∧ jsIncludes link "/share" = false ∧
      jsStartsWith link "http" = true) ∧
    (extractFacebook html).Nodup := by
  constructor
  · intro link hmem
    have h1 := (mem_jsDedup link _).mp hmem
    have h2 := List.mem_filter.mp h1
    have hpat := h2.2
    simp only [Bool.and_eq_true, Bool.not_eq_true'] at hpat
    obtain ⟨orig, _, rfl⟩ := List.mem_map.mp h2.1
    exact ⟨hpat.1, hpat.2, fbNormalize_startsWith orig⟩
  · exact nodup_jsDedup _

/-- C8 witness: a page with a `/login` link and a profile link. -/
theorem C8_facebook_filter_normalized_witness :
    jsIncludes "https://facebook.com/biz" "/login" = false ∧
    jsIncludes "https://facebook.com/biz" "/share" = false ∧
    jsStartsWith "https://facebook.com/biz" "http" = true :=
  (C8_facebook_filter_normalized "facebook.com/login facebook.com/biz").1
    "https://facebook.com/biz" (by decide)
